import Mathlib

/-!
Verification of the gonerator code generator.

This file shallowly embeds the two-stage pipeline of the repository:
the extraction stage (`parseFile` / `parseMethod` / `parseStructFields` /
`parseApiValidatorTag` from internal/generator/parser.go) and the
generation stage (`Generate` from internal/generator, together with the
handler template, which is modelled from the specification since its
source is not part of the tree).

Modelling conventions:
* Go strings are Lean `String`s; the character-level Go `strings`
  operations used by the tag parser are re-implemented over `List Char`.
* Machine `int` is modelled as `Int` (no claim involves overflow).
* Go's `encoding/json` is an external library; a directive comment line
  is embedded together with the stdlib decode result of its payload.
* A Go runtime panic (nil dereference, failed type assertion, index out
  of range) aborts the process; it is modelled as the distinguished
  error value `GoErr.panicErr`.  Returning any `GoErr` means the run
  aborted before the output file was written.
-/

/-! ## Go string primitives used by the tag grammar parser -/

/-- The backquote character delimiting Go raw string tag literals. -/
def backquoteChar : Char := Char.ofNat 96

/-- The double-quote character. -/
def doublequoteChar : Char := Char.ofNat 34

/-- Split on a separator character, Go `strings.Split` with a
one-character separator: `goSplitAux c [] acc = [acc.reverse]`, so the
empty string yields one empty part, as in Go. -/
def goSplitAux (c : Char) : List Char → List Char → List (List Char)
  | [], acc => [acc.reverse]
  | x :: xs, acc =>
    if x = c then acc.reverse :: goSplitAux c xs []
    else goSplitAux c xs (x :: acc)

/-- Go `strings.Split(s, string(c))`. -/
def goSplit (c : Char) (l : List Char) : List (List Char) := goSplitAux c l []

/-- Helper for Go `strings.SplitN(part, "=", 2)`: the text before the
first `=` and, when a `=` exists, the text after it. -/
def splitN2Aux : List Char → List Char → List Char × Option (List Char)
  | [], acc => (acc.reverse, none)
  | x :: xs, acc =>
    if x = '=' then (acc.reverse, some xs)
    else splitN2Aux xs (x :: acc)

/-- The clause key: `keyValue[0]` in the source. -/
def keyOf (part : List Char) : List Char := (splitN2Aux part []).1

/-- The clause value: `keyValue[1]` when the split produced two pieces,
the empty string otherwise, exactly as in the source. -/
def valOf (part : List Char) : List Char :=
  match (splitN2Aux part []).2 with
  | some v => v
  | none => []

/-- Go `strings.Trim(s, string(c))`: remove every leading and trailing
occurrence of the character. -/
def goTrim (c : Char) (l : List Char) : List Char :=
  ((l.dropWhile (· = c)).reverse.dropWhile (· = c)).reverse

/-- The characters of the fixed tag key `apivalidator:`. -/
def tagKeyChars : List Char := "apivalidator:".toList

/-- Go `strings.TrimPrefix(tagValue, "apivalidator:")`. -/
def stripTagKey (l : List Char) : List Char :=
  if tagKeyChars.isPrefixOf l then l.drop tagKeyChars.length else l

/-- Numeric value of a block of decimal digits. -/
def digitsVal (l : List Char) : Nat :=
  l.foldl (fun a c => a * 10 + (c.toNat - 48)) 0

/-- The leading characters `fmt`'s scanner discards before a `%d` verb
in `Sscanf`: space, tab, vertical tab, form feed and carriage return.
A newline is not skipped — with `Sscanf` it is an `unexpected newline`
scan error (and since it is neither sign nor digit, stopping at it
below yields the same failed parse). -/
def isGoScanSpace (c : Char) : Bool :=
  c = ' ' || c = '\t' || c = Char.ofNat 11 || c = Char.ofNat 12 || c = Char.ofNat 13

/-- The largest value of Go's 64-bit `int`. -/
def int64Max : Int := 9223372036854775807

/-- The smallest value of Go's 64-bit `int`. -/
def int64Min : Int := -9223372036854775808

/-- `strToInt` from parser.go: `fmt.Sscanf(s, "%d", &i)`.  Scanning
skips leading whitespace (not newline), accepts an optional sign
followed by at least one decimal digit, and ignores any trailing text
(the format string is exhausted after the verb).  No digits means a
scan error; the digit token goes through `strconv.ParseInt(tok, 10,
64)`, so a value outside the 64-bit `int` range is a range error.
Either error is modelled as `none`. -/
def strToIntL (l : List Char) : Option Int :=
  let l1 := l.dropWhile isGoScanSpace
  let signedVal : Option Int :=
    match l1 with
    | '-' :: rest =>
      let ds := rest.takeWhile Char.isDigit
      if ds = [] then none else some (-(digitsVal ds : Int))
    | '+' :: rest =>
      let ds := rest.takeWhile Char.isDigit
      if ds = [] then none else some (digitsVal ds : Int)
    | _ =>
      let ds := l1.takeWhile Char.isDigit
      if ds = [] then none else some (digitsVal ds : Int)
  match signedVal with
  | none => none
  | some v => if v < int64Min ∨ int64Max < v then none else some v

/-- `strToInt` on a `String`. -/
def strToInt (s : String) : Option Int := strToIntL s.toList

/-! ## Data model (parser.go) -/

/-- `ApiMethod`: the directive decoded from the comment.  Field defaults
are the Go zero values an absent JSON key leaves behind. -/
structure ApiMethod where
  Url : String := ""
  Auth : Bool := false
  Method : String := ""
  AuthEnvKey : String := ""
deriving DecidableEq, Repr

/-- `ApiValidatorTag`: validation rules of one field.  Defaults are the
Go zero values. -/
structure ApiValidatorTag where
  Required : Bool := false
  Min : Option Int := none
  Max : Option Int := none
  ParamName : String := ""
  Enum : List String := []
  Default : String := ""
deriving DecidableEq, Repr

/-- `StructField`: a field of the input struct of an API method.  The
source names the second field `Type`; that is a Lean keyword, so it is
called `Typ` here. -/
structure StructField where
  Name : String
  Typ : String
  Tag : ApiValidatorTag
deriving DecidableEq, Repr

/-- `Method`: a parsed API method with all its metadata. -/
structure Method where
  Name : String
  ReceiverName : String
  ReceiverType : String
  InputType : String
  OutputType : String
  Api : ApiMethod
  StructFields : List StructField
deriving DecidableEq, Repr

/-! ## Tag grammar parser (`parseApiValidatorTag`) -/

/-- The clause list of a raw tag literal: trim backquotes, strip the
`apivalidator:` key, trim double quotes, split on commas — the
preprocessing of `parseApiValidatorTag`. -/
def tagClauses (t : String) : List (List Char) :=
  goSplit ',' (goTrim doublequoteChar (stripTagKey (goTrim backquoteChar t.toList)))

/-- One iteration of the clause loop of `parseApiValidatorTag`: the
`switch key` statement of the source. -/
def applyClause (result : ApiValidatorTag) (part : List Char) : ApiValidatorTag :=
  if keyOf part = "required".toList then { result with Required := true }
  else if keyOf part = "paramname".toList then { result with ParamName := String.mk (valOf part) }
  else if keyOf part = "enum".toList then
    { result with Enum := (goSplit '|' (valOf part)).map String.mk }
  else if keyOf part = "default".toList then { result with Default := String.mk (valOf part) }
  else if keyOf part = "min".toList then
    match strToIntL (valOf part) with
    | some v => { result with Min := some v }
    | none => result
  else if keyOf part = "max".toList then
    match strToIntL (valOf part) with
    | some v => { result with Max := some v }
    | none => result
  else result

/-- `parseApiValidatorTag` from parser.go.  A `nil` tag (`none`) yields
the zero rule; otherwise the raw literal is trimmed, the key stripped,
and the comma-separated clauses folded over the zero rule. -/
def parseApiValidatorTag (tag : Option String) : ApiValidatorTag :=
  match tag with
  | none => {}
  | some t => (tagClauses t).foldl applyClause {}

/-! ## Syntax-tree model (the go/ast shapes the extractor touches) -/

/-- The type expressions `parseMethod` and `parseStructFields` look at:
plain identifiers, pointer types (`ast.StarExpr` over an expression),
qualified identifiers such as `context.Context` (`ast.SelectorExpr`),
and a catch-all for every other expression shape. -/
inductive TypeExpr where
  | ident (name : String)
  | star (inner : TypeExpr)
  | selector (pkg name : String)
  | otherExpr
deriving DecidableEq, Repr

/-- An `ast.Field`: a (possibly empty) name list, a type expression,
and an optional raw tag literal (`ast.BasicLit` value, backquotes
included). -/
structure AstField where
  names : List String := []
  typ : TypeExpr
  tag : Option String := none
deriving DecidableEq, Repr

/-- An `ast.FuncType`: parameter list and optional result list
(`Results` is nil in go/ast when a function declares no results). -/
structure FuncType where
  params : List AstField := []
  results : Option (List AstField) := none
deriving DecidableEq, Repr

deriving instance DecidableEq for Except

/-- One line of a doc comment.  A line whose text begins with the fixed
directive token `// apigen:api` is embedded as `apigen` carrying the
`encoding/json` decode result of the rest of the line into the
`ApiMethod` shape (the JSON decoder itself is the external stdlib);
every other line is `plain`. -/
inductive CommentLine where
  | apigen (payload : Except String ApiMethod)
  | plain (text : String)
deriving DecidableEq, Repr

/-- An `ast.FuncDecl`: doc comment lines (empty list for a nil doc),
name, optional receiver field list (`Recv` is nil for a package-level
function), and the function type. -/
structure FuncDecl where
  doc : List CommentLine := []
  name : String
  recv : Option (List AstField) := none
  typ : FuncType
deriving DecidableEq, Repr

/-- A top-level declaration: a function declaration, a type
specification declaring a struct, or anything else. -/
inductive Decl where
  | funcDecl (fd : FuncDecl)
  | typeSpecStruct (name : String) (fields : List AstField)
  | otherDecl
deriving DecidableEq, Repr

/-- A parsed source file: package clause name and declarations. -/
structure GoFile where
  pkgName : String
  decls : List Decl
deriving DecidableEq, Repr

/-- The ways a run of the pipeline aborts.  `panicErr` stands for a Go
runtime panic (nil dereference, failed type assertion, index out of
range): the process dies before any later step runs.  The other
constructors carry the error message the code returns. -/
inductive GoErr where
  | panicErr
  | jsonErr (msg : String)
  | templateErr (msg : String)
  | formatErr (msg : String)
deriving DecidableEq, Repr

/-! ## Declaration extractor (`parseFile`, `parseMethod`,
`parseStructFields`) -/

/-- The comment scan of `parseFile`: the first doc line carrying the
`// apigen:api` directive token, if any (the loop `break`s at the first
hit, so the first such line wins). -/
def findDirective : List CommentLine → Option (Except String ApiMethod)
  | [] => none
  | .apigen payload :: _ => some payload
  | .plain _ :: rest => findDirective rest

/-- The `.(*ast.Ident).Name` type assertion: succeeds only on a plain
identifier. -/
def identName : TypeExpr → Option String
  | .ident n => some n
  | _ => none

/-- The `.(*ast.StarExpr).X.(*ast.Ident).Name` chain: succeeds only on
a pointer to a plain identifier. -/
def starIdentName : TypeExpr → Option String
  | .star (.ident n) => some n
  | _ => none

/-- The positional accesses building the `Method` literal at the top of
`parseMethod`, in source order: receiver name `Recv.List[0].Names[0]`,
receiver type `Recv.List[0].Type` as `*Ident`, input type
`Params.List[1]` as `Ident`, output type `Results.List[0].Type` as
`*Ident`.  Any failure is a runtime panic in Go, hence `none` here. -/
def sigExtract (fd : FuncDecl) : Option (String × String × String × String) := do
  let recvList ← fd.recv
  let recvField ← recvList.head?
  let recvName ← recvField.names.head?
  let recvType ← starIdentName recvField.typ
  let inputField ← fd.typ.params[1]?
  let inputType ← identName inputField.typ
  let resList ← fd.typ.results
  let resField ← resList.head?
  let outputType ← starIdentName resField.typ
  pure (recvName, recvType, inputType, outputType)

/-- `fmt.Sprintf("%s", field.Type)`: an `ast.Ident` prints as its name;
other expression nodes print as an opaque struct dump, summarised here
by a placeholder (no claim depends on that text). -/
def fieldText : TypeExpr → String
  | .ident n => n
  | .star _ => "starExprDump"
  | .selector _ _ => "selectorExprDump"
  | .otherExpr => "exprDump"

/-- `parseStructFields` from parser.go: walk the tree, and for every
type specification named `structName` that declares a struct, append
its named fields (a field with an empty name list is skipped), each
carrying its literal type text and its parsed validator tag.  The
re-parse of the file cannot fail here, because the same file was
already parsed by the caller. -/
def parseStructFields (decls : List Decl) (structName : String) : List StructField :=
  decls.foldl
    (fun acc d =>
      match d with
      | .typeSpecStruct n fs =>
        if n = structName then
          acc ++ fs.filterMap (fun f =>
            match f.names.head? with
            | some fieldName =>
              some { Name := fieldName, Typ := fieldText f.typ, Tag := parseApiValidatorTag f.tag }
            | none => none)
        else acc
      | _ => acc)
    []

/-- The two default-filling statements of `parseMethod`: an empty
`Method` field becomes `"GET,POST"`, and an empty `AuthEnvKey` becomes
`"API_AUTH_KEY"` when `Auth` is set. -/
def fillDefaults (a : ApiMethod) : ApiMethod :=
  let a1 := if a.Method = "" then { a with Method := "GET,POST" } else a
  if a1.Auth = true ∧ a1.AuthEnvKey = "" then { a1 with AuthEnvKey := "API_AUTH_KEY" } else a1

/-- `parseMethod` from parser.go.  The `Method` literal is built first
(its positional accesses panic on any signature that is not
`(ctx, Input) -> (*Output, error)` on a pointer receiver with a named
receiver variable), then the directive payload decode result is
inspected (a decode error is returned), then defaults are filled and
the input struct fields resolved. -/
def parseMethod (decls : List Decl) (fd : FuncDecl)
    (payload : Except String ApiMethod) : Except GoErr Method :=
  match sigExtract fd with
  | none => .error .panicErr
  | some (recvName, recvType, inputType, outputType) =>
    match payload with
    | .error e => .error (.jsonErr e)
    | .ok am =>
      .ok { Name := fd.name
            ReceiverName := recvName
            ReceiverType := recvType
            InputType := inputType
            OutputType := outputType
            Api := fillDefaults am
            StructFields := parseStructFields decls inputType }

/-- The declaration loop of `parseFile`: walk the declarations in
order; for every function declaration whose doc comment carries a
directive line, run `parseMethod` and abort on its error, otherwise
append the method and continue.  `all` is the full declaration list,
needed by the struct-field re-walk. -/
def parseDecls (all : List Decl) : List Decl → Except GoErr (List Method)
  | [] => .ok []
  | .funcDecl fd :: rest =>
    match findDirective fd.doc with
    | some payload =>
      match parseMethod all fd payload with
      | .error e => .error e
      | .ok m =>
        match parseDecls all rest with
        | .error e => .error e
        | .ok ms => .ok (m :: ms)
    | none => parseDecls all rest
  | _ :: rest => parseDecls all rest

/-- `parseFile` from parser.go, on an already-parsed file (the source
text to syntax tree step is the external go/parser). -/
def parseFile (file : GoFile) : Except GoErr (List Method) :=
  parseDecls file.decls file.decls

/-! ## Code emitter (`Generate`) -/

/-- One step of the grouping loop of `Generate`:
`groupedMethods[method.ReceiverType] = append(...)` on a Go map,
embedded as an association list — append to the entry of the receiver
type when it exists, otherwise add a fresh entry.  The association
order is an artifact of the embedding: the Go map is unordered, and
every consumer below either sorts the keys or is quantified over an
arbitrary enumeration of them. -/
def insertGroup : List (String × List Method) → Method → List (String × List Method)
  | [], m => [(m.ReceiverType, [m])]
  | (k, ms) :: rest, m =>
    if k = m.ReceiverType then (k, ms ++ [m]) :: rest
    else (k, ms) :: insertGroup rest m

/-- The grouping loop of `Generate` over the extracted method list. -/
def groupMethods (methods : List Method) : List (String × List Method) :=
  methods.foldl insertGroup []

/-- Reading `groupedMethods[k]` from the embedded map: the entry of the
first pair carrying the key, the empty list when absent (the Go zero
value for a missing map key). -/
def lookupGroup : List (String × List Method) → String → List Method
  | [], _ => []
  | (k, ms) :: rest, key => if k = key then ms else lookupGroup rest key

/-- Modelled from the spec: the per-method validation block the missing
`handlerTemplate` emits for one `Method` (the template source is not
under src; only its name appears in `Generate`).  The exact text is a
summary; what the claims need is that it names the method. -/
def renderMethodLine (m : Method) : String :=
  "handler " ++ m.Name ++ " " ++ m.Api.Url ++ "\n"

/-- Modelled from the spec: the dispatcher the missing
`handlerTemplate` emits for one `MethodGroup` — one dispatcher function
per receiver type followed by one block per method of the group. -/
def renderGroup (k : String) (ms : List Method) : String :=
  "dispatcher " ++ k ++ "\n" ++ String.join (ms.map renderMethodLine)

/-- Lexicographic comparison of character lists, the order Go uses on
strings (`a <= b` bytewise; identifiers here are ASCII, where bytewise
and characterwise agree). -/
def strLeb : List Char → List Char → Bool
  | [], _ => true
  | _ :: _, [] => false
  | x :: xs, y :: ys => if x < y then true else if x = y then strLeb xs ys else false

/-- Go's `<=` on strings, as the template engine's key sort uses it. -/
def goStrLe (a b : String) : Prop := strLeb a.toList b.toList = true

instance goStrLeDecRel : DecidableRel goStrLe := fun a b =>
  inferInstanceAs (Decidable (strLeb a.toList b.toList = true))

/-- Modelled from the spec: executing the missing `handlerTemplate`
over the render context of `Generate` (package name plus the grouped
method map).  `keyEnum` is the enumeration order in which the Go
runtime hands the map keys to the template engine this run; Go's
text/template ranges over a map in sorted key order, so the engine
sorts that enumeration before emitting the groups. -/
def renderTemplate (keyEnum : List String) (pkg : String)
    (grouped : List (String × List Method)) : String :=
  "package " ++ pkg ++ "\n" ++
    String.join ((List.insertionSort goStrLe keyEnum).map
      (fun k => renderGroup k (lookupGroup grouped k)))

/-- The rendering the C7 claim describes, named after its words: the
groups presented in first-seen receiver-type order (the order in which
receiver types first appear in the extracted method list, which is the
association order `groupMethods` happens to build). -/
def renderTemplateFirstSeen (pkg : String)
    (grouped : List (String × List Method)) : String :=
  "package " ++ pkg ++ "\n" ++
    String.join ((grouped.map Prod.fst).map
      (fun k => renderGroup k (lookupGroup grouped k)))

/-- Modelled from the spec: `handlerTemplate.Execute` as `Generate`
calls it — a fixed template over well-formed render data; with this
data it renders the text above and reports no error. -/
def handlerTemplate (pkg : String) (grouped : List (String × List Method))
    (keyEnum : List String) : Except String String :=
  .ok (renderTemplate keyEnum pkg grouped)

/-- `Generate` from internal/generator.  The steps of the source in
order: `parseFile`, `getPackageName` (a re-parse of the same file; it
cannot fail once `parseFile` succeeded, so it is the package clause
name), the grouping loop, template execution, `format.Source`, and
`os.WriteFile`.

`tmplExec` abstracts the template engine (its concrete instance is
`handlerTemplate`); `formatSource` abstracts the external gofmt
(`format.Source`); `keyEnum` is the runtime's map key enumeration for
this run.  The result `.ok s` means the run reached `os.WriteFile` and
wrote exactly the formatted bytes `s`; every `.error` is returned
before the write, leaving the destination untouched. -/
def Generate
    (tmplExec : String → List (String × List Method) → List String → Except String String)
    (formatSource : String → Except String String)
    (keyEnum : List String) (file : GoFile) : Except GoErr String :=
  match parseFile file with
  | .error e => .error e
  | .ok methods =>
    let pkg := file.pkgName
    let grouped := groupMethods methods
    match tmplExec pkg grouped keyEnum with
    | .error e => .error (.templateErr e)
    | .ok buf =>
      match formatSource buf with
      | .error e => .error (.formatErr e)
      | .ok formatted => .ok formatted

/-! ## Lemmas on the tag grammar parser -/

/-- No clause ever clears the `Required` flag. -/
theorem applyClause_Required_true (r : ApiValidatorTag) (p : List Char)
    (h : r.Required = true) : (applyClause r p).Required = true := by
  unfold applyClause
  split_ifs <;> first
    | rfl
    | exact h
    | (cases strToIntL (valOf p) <;> exact h)

/-- A clause whose key is `required` sets the flag, whatever its value. -/
theorem applyClause_Required_set (r : ApiValidatorTag) (p : List Char)
    (h : keyOf p = "required".toList) : (applyClause r p).Required = true := by
  unfold applyClause
  rw [if_pos h]

/-- The `Required` flag survives any further clauses. -/
theorem foldl_Required_mono (parts : List (List Char)) :
    ∀ acc : ApiValidatorTag, acc.Required = true →
      (parts.foldl applyClause acc).Required = true := by
  induction parts with
  | nil => intro acc h; exact h
  | cons p ps ih => intro acc h; exact ih _ (applyClause_Required_true _ _ h)

/-- Some clause with key `required` forces the flag in the fold. -/
theorem foldl_Required_set (parts : List (List Char)) :
    ∀ acc : ApiValidatorTag, (∃ p ∈ parts, keyOf p = "required".toList) →
      (parts.foldl applyClause acc).Required = true := by
  induction parts with
  | nil => intro acc h; exact absurd h (by simp)
  | cons p ps ih =>
    intro acc h
    rcases h with ⟨q, hq, hkey⟩
    rcases List.mem_cons.mp hq with rfl | hq'
    · exact foldl_Required_mono ps _ (applyClause_Required_set _ _ hkey)
    · exact ih _ ⟨q, hq', hkey⟩

/-! ## Claim C3 -/

/-- C10: any clause whose key is `required` sets `Required`, whatever
value is attached — the value part of a `required` clause is ignored. -/
theorem c10_required_ignores_value (t : String) (p : List Char)
    (hmem : p ∈ tagClauses t) (hkey : keyOf p = "required".toList) :
    (parseApiValidatorTag (some t)).Required = true := by
  show ((tagClauses t).foldl applyClause {}).Required = true
  exact foldl_Required_set _ _ ⟨p, hmem, hkey⟩

/-- C10 witness: the clause `required=false` still yields
`Required = true`. -/
theorem c10_required_ignores_value_witness :
    (parseApiValidatorTag (some "required=false")).Required = true :=
  c10_required_ignores_value "required=false" "required=false".toList
    (by decide) (by decide)

/-! ## Claim C6 -/

/-- C6: after default-filling, the directive's method string is never
empty; an absent `method` key (the empty Go zero value) yields exactly
`GET,POST`; with `auth` set and no `auth_env_key`, the fixed fallback
`API_AUTH_KEY` is filled in; and default-filling is idempotent, so a
directive is semantically stable under the defaulting policy. -/
theorem c6_directive_defaults (a : ApiMethod) :
    (fillDefaults a).Method ≠ "" ∧
    (a.Method = "" → (fillDefaults a).Method = "GET,POST") ∧
    (a.Auth = true → a.AuthEnvKey = "" → (fillDefaults a).AuthEnvKey = "API_AUTH_KEY") ∧
    fillDefaults (fillDefaults a) = fillDefaults a := by
  obtain ⟨url, auth, method, key⟩ := a
  by_cases hm : method = "" <;> by_cases ha : auth = true <;> by_cases hk : key = "" <;>
    simp_all [fillDefaults]

/-- C6 witness: the empty-method, auth-without-key directive gets both
defaults. -/
theorem c6_directive_defaults_witness :
    (fillDefaults { Url := "/x", Auth := true }).Method = "GET,POST" ∧
    (fillDefaults { Url := "/x", Auth := true }).AuthEnvKey = "API_AUTH_KEY" :=
  ⟨(c6_directive_defaults _).2.1 rfl, (c6_directive_defaults _).2.2.1 rfl rfl⟩

/-! ## Lemmas on the declaration extractor -/

/-- A malformed signature is a runtime panic in `parseMethod`, before
the payload is even inspected. -/
theorem parseMethod_sig_panic (all : List Decl) (fd : FuncDecl)
    (p : Except String ApiMethod) (h : sigExtract fd = none) :
    parseMethod all fd p = .error .panicErr := by
  simp [parseMethod, h]

/-- A directive payload that failed to decode never yields a method:
either the signature accesses panic first, or the decode error is
returned. -/
theorem parseMethod_payload_error (all : List Decl) (fd : FuncDecl) (msg : String) :
    ∃ e, parseMethod all fd (.error msg) = .error e := by
  cases h : sigExtract fd with
  | none => exact ⟨.panicErr, parseMethod_sig_panic all fd _ h⟩
  | some x =>
    obtain ⟨a, b, c, d⟩ := x
    exact ⟨.jsonErr msg, by simp [parseMethod, h]⟩

/-- A successfully parsed method keeps the declaration's name. -/
theorem parseMethod_ok_name (all : List Decl) (fd : FuncDecl)
    (p : Except String ApiMethod) (m : Method)
    (h : parseMethod all fd p = .ok m) : m.Name = fd.name := by
  unfold parseMethod at h
  cases hs : sigExtract fd with
  | none => rw [hs] at h; simp at h
  | some x =>
    obtain ⟨a, b, c, d⟩ := x
    rw [hs] at h
    cases p with
    | error e => simp at h
    | ok am =>
      simp only [Except.ok.injEq] at h
      rw [← h]

/-- If some annotated declaration's `parseMethod` fails, the whole
declaration walk returns an error: no method list is produced. -/
theorem parseDecls_error_of_mem (all ds : List Decl) (fd : FuncDecl)
    (p : Except String ApiMethod)
    (hmem : Decl.funcDecl fd ∈ ds)
    (hdir : findDirective fd.doc = some p)
    (herr : ∃ e0, parseMethod all fd p = .error e0) :
    ∃ e, parseDecls all ds = .error e := by
  induction ds with
  | nil => cases hmem
  | cons d rest ih =>
    rcases List.mem_cons.mp hmem with heq | hmem'
    · obtain ⟨e0, he0⟩ := herr
      exact ⟨e0, by simp [← heq, parseDecls, hdir, he0]⟩
    · cases d with
      | funcDecl fd' =>
        cases hdir' : findDirective fd'.doc with
        | none =>
          obtain ⟨e, he⟩ := ih hmem'
          exact ⟨e, by simp [parseDecls, hdir', he]⟩
        | some p' =>
          cases hpm : parseMethod all fd' p' with
          | error e => exact ⟨e, by simp [parseDecls, hdir', hpm]⟩
          | ok m =>
            obtain ⟨e, he⟩ := ih hmem'
            exact ⟨e, by simp [parseDecls, hdir', hpm, he]⟩
      | typeSpecStruct n fs =>
        obtain ⟨e, he⟩ := ih hmem'
        exact ⟨e, by simp [parseDecls, he]⟩
      | otherDecl =>
        obtain ⟨e, he⟩ := ih hmem'
        exact ⟨e, by simp [parseDecls, he]⟩

/-- An extraction error propagates out of `Generate` unchanged, before
any output is produced. -/
theorem generate_error_of_parseFile (file : GoFile) (e : GoErr)
    (h : parseFile file = .error e)
    (tmplExec : String → List (String × List Method) → List String → Except String String)
    (formatSource : String → Except String String) (keyEnum : List String) :
    Generate tmplExec formatSource keyEnum file = .error e := by
  simp [Generate, h]

/-! ## Concrete syntax-tree pieces used by the witnesses -/

/-- A `ctx context.Context` parameter. -/
def ctxParam : AstField := { names := ["ctx"], typ := .selector "context" "Context" }

/-- An `in T` input-struct parameter. -/
def inParam (n : String) : AstField := { names := ["in"], typ := .ident n }

/-- A `*T` result. -/
def outResult (n : String) : AstField := { typ := .star (.ident n) }

/-- An `error` result. -/
def errResult : AstField := { typ := .ident "error" }

/-- A named pointer receiver `(r *T)`. -/
def ptrRecv (n : String) : AstField := { names := ["r"], typ := .star (.ident n) }

/-- A well-formed annotated method declaration carrying the given
directive decode result. -/
def wellFormedFd (nm rt : String) (payload : Except String ApiMethod) : FuncDecl :=
  { doc := [.apigen payload], name := nm, recv := some [ptrRecv rt],
    typ := { params := [ctxParam, inParam "Params"],
             results := some [outResult "Result", errResult] } }

/-! ## Claim C1 -/

/-- C1: a directive comment whose JSON payload fails to decode aborts
the whole extraction — `parseFile` returns an error and no method list
at all, `Generate` returns that same error, and the run never reaches
the output write (an `.ok` of `Generate` is the only write). -/
theorem c1_decode_failure_aborts (file : GoFile) (fd : FuncDecl) (msg : String)
    (hmem : Decl.funcDecl fd ∈ file.decls)
    (hdir : findDirective fd.doc = some (.error msg)) :
    ∃ e, parseFile file = .error e ∧
      ∀ (tmplExec : String → List (String × List Method) → List String → Except String String)
        (formatSource : String → Except String String) (keyEnum : List String),
        Generate tmplExec formatSource keyEnum file = .error e := by
  obtain ⟨e, he⟩ := parseDecls_error_of_mem file.decls file.decls fd (.error msg)
    hmem hdir (parseMethod_payload_error file.decls fd msg)
  exact ⟨e, he, fun t f k => generate_error_of_parseFile file e he t f k⟩

/-- The C1 witness file: one annotated, well-formed method whose
directive payload failed JSON decoding. -/
def fileC1 : GoFile :=
  { pkgName := "example",
    decls := [.funcDecl (wellFormedFd "Bad" "MyApi" (.error "invalid character"))] }

/-- C1 witness: on the concrete file the extraction and the whole
generation abort with one and the same error. -/
theorem c1_decode_failure_aborts_witness :
    ∃ e, parseFile fileC1 = .error e ∧
      Generate handlerTemplate (fun s => .ok s) ["MyApi"] fileC1 = .error e := by
  obtain ⟨e, h1, h2⟩ := c1_decode_failure_aborts fileC1
    (wellFormedFd "Bad" "MyApi" (.error "invalid character")) "invalid character"
    (by decide) (by decide)
  exact ⟨e, h1, h2 _ _ _⟩

/-! ## Claim C5 -/

/-- An annotated method with a third parameter after the input struct:
every positional access of `parseMethod` still succeeds, so nothing
aborts. -/
def fdExtraParam : FuncDecl :=
  { doc := [.apigen (.ok { Url := "/x" })], name := "Extra",
    recv := some [ptrRecv "S"],
    typ := { params := [ctxParam, inParam "P", { names := ["extra"], typ := .ident "int" }],
             results := some [outResult "R", errResult] } }

/-- The C5 counterexample file: only declaration is `fdExtraParam`. -/
def fileC5x : GoFile := { pkgName := "m", decls := [.funcDecl fdExtraParam] }

/-- C5 counterexample: an annotated method whose signature has the
wrong parameter count — three parameters instead of the claimed exact
`(ctx, Input)` shape — is not a hard error: `parseMethod` only reads
`Params.List[1]`, the extra parameter is never inspected, extraction
returns a `Method`, and `Generate` completes and writes the output
file, contradicting the claim's abort-with-no-output for this
explicitly listed shape. -/
theorem c5_counterexample :
    parseFile fileC5x =
      .ok [{ Name := "Extra", ReceiverName := "r", ReceiverType := "S", InputType := "P",
             OutputType := "R",
             Api := { Url := "/x", Auth := false, Method := "GET,POST", AuthEnvKey := "" },
             StructFields := [] }] ∧
    Generate handlerTemplate (fun s => .ok s) ["S"] fileC5x =
      .ok "package m\ndispatcher S\nhandler Extra /x\n" := by
  decide

/-- C5 (amended): extraction is a hard error exactly for the signature
shapes the positional accesses trip over — no receiver or an unnamed
one, a receiver or first result that is not a pointer to a plain
identifier, fewer than two parameters, a second parameter that is not
a plain identifier, or a nil result list: these fail as runtime panics
(`GoErr.panicErr`), the whole run aborts and the output file is never
written.  Parameters beyond the second, extra results, or a
non-context first parameter are never inspected and do not abort. -/
theorem c5_bad_signature_aborts (file : GoFile) (fd : FuncDecl)
    (p : Except String ApiMethod)
    (hmem : Decl.funcDecl fd ∈ file.decls)
    (hdir : findDirective fd.doc = some p)
    (hsig : sigExtract fd = none) :
    ∃ e, parseFile file = .error e ∧
      ∀ (tmplExec : String → List (String × List Method) → List String → Except String String)
        (formatSource : String → Except String String) (keyEnum : List String),
        Generate tmplExec formatSource keyEnum file = .error e := by
  obtain ⟨e, he⟩ := parseDecls_error_of_mem file.decls file.decls fd p
    hmem hdir ⟨.panicErr, parseMethod_sig_panic file.decls fd p hsig⟩
  exact ⟨e, he, fun t f k => generate_error_of_parseFile file e he t f k⟩

/-- The C5 witness file: an annotated method with a non-pointer
receiver (its directive payload itself is fine). -/
def fileC5 : GoFile :=
  { pkgName := "example",
    decls := [.funcDecl
      { doc := [.apigen (.ok { Url := "/user/create" })], name := "Create",
        recv := some [{ names := ["srv"], typ := .ident "MyApi" }],
        typ := { params := [ctxParam, inParam "CreateParams"],
                 results := some [outResult "NewUser", errResult] } }] }

/-- C5 witness: the concrete malformed-receiver file aborts both the
extraction and the generation run. -/
theorem c5_bad_signature_aborts_witness :
    ∃ e, parseFile fileC5 = .error e ∧
      Generate handlerTemplate (fun s => .ok s) ["MyApi"] fileC5 = .error e := by
  obtain ⟨e, h1, h2⟩ := c5_bad_signature_aborts fileC5
    { doc := [.apigen (.ok { Url := "/user/create" })], name := "Create",
      recv := some [{ names := ["srv"], typ := .ident "MyApi" }],
      typ := { params := [ctxParam, inParam "CreateParams"],
               results := some [outResult "NewUser", errResult] } }
    (.ok { Url := "/user/create" }) (by decide) (by decide) (by decide)
  exact ⟨e, h1, h2 _ _ _⟩

/-! ## Claim C4 -/

/-- The C4 failing input: a file whose only declaration is a
package-level function (no receiver) with a qualifying directive line
in its doc comment. -/
def fileC4 : GoFile :=
  { pkgName := "main",
    decls := [.funcDecl
      { doc := [.apigen (.ok { Url := "/x" })], name := "FreeFn", recv := none,
        typ := { params := [ctxParam, inParam "P"],
                 results := some [outResult "R", errResult] } }] }

/-- C4, code behaviour at the failing input: a package-level function
whose doc comment carries a qualifying directive line is not skipped —
`parseMethod` dereferences the nil receiver (`funcDecl.Recv.List[0]`),
a runtime panic, so the extraction dies with `panicErr` instead of
returning the method-free `.ok` list the claim describes. -/
theorem c4_annotated_function_panics :
    parseFile fileC4 = .error .panicErr := by
  decide

/-! ## The string order is total, transitive and antisymmetric -/

/-- Totality of the lexicographic comparison. -/
theorem strLeb_total (a : List Char) : ∀ b, strLeb a b = true ∨ strLeb b a = true := by
  induction a with
  | nil => intro b; left; rfl
  | cons x xs ih =>
    intro b
    cases b with
    | nil => right; rfl
    | cons y ys =>
      rcases lt_trichotomy x y with h | h | h
      · left; simp [strLeb, h]
      · subst h
        rcases ih ys with h1 | h1
        · left; simp [strLeb, lt_irrefl, h1]
        · right; simp [strLeb, lt_irrefl, h1]
      · right; simp [strLeb, h]

/-- Transitivity of the lexicographic comparison. -/
theorem strLeb_trans (a : List Char) : ∀ b c, strLeb a b = true → strLeb b c = true →
    strLeb a c = true := by
  induction a with
  | nil => intro b c _ _; rfl
  | cons x xs ih =>
    intro b c h1 h2
    cases b with
    | nil => simp [strLeb] at h1
    | cons y ys =>
      cases c with
      | nil => simp [strLeb] at h2
      | cons z zs =>
        simp only [strLeb] at h1 h2 ⊢
        by_cases hxy : x < y
        · by_cases hyz : y < z
          · simp [lt_trans hxy hyz]
          · by_cases hyz2 : y = z
            · subst hyz2; simp [hxy]
            · simp [hyz, hyz2] at h2
        · by_cases hxy2 : x = y
          · subst hxy2
            simp only [lt_irrefl, if_false, if_pos rfl] at h1
            by_cases hyz : x < z
            · simp [hyz]
            · by_cases hyz2 : x = z
              · subst hyz2
                simp only [lt_irrefl, if_false, if_pos rfl] at h2 ⊢
                exact ih ys zs h1 h2
              · simp [hyz, hyz2] at h2
          · simp [hxy, hxy2] at h1

/-- Antisymmetry of the lexicographic comparison. -/
theorem strLeb_antisymm (a : List Char) : ∀ b, strLeb a b = true → strLeb b a = true →
    a = b := by
  induction a with
  | nil =>
    intro b _ h2
    cases b with
    | nil => rfl
    | cons y ys => simp [strLeb] at h2
  | cons x xs ih =>
    intro b h1 h2
    cases b with
    | nil => simp [strLeb] at h1
    | cons y ys =>
      simp only [strLeb] at h1 h2
      by_cases hxy : x < y
      · by_cases hyx : y < x
        · exact absurd hyx (asymm hxy)
        · by_cases hyx2 : y = x
          · exact absurd (hyx2 ▸ hxy) (lt_irrefl x)
          · simp [hyx, hyx2] at h2
      · by_cases hxy2 : x = y
        · subst hxy2
          simp only [lt_irrefl, if_false, if_pos rfl] at h1 h2
          rw [ih ys h1 h2]
        · simp [hxy, hxy2] at h1

instance goStrLeTotal : IsTotal String goStrLe :=
  ⟨fun a b => strLeb_total a.toList b.toList⟩

instance goStrLeTrans : IsTrans String goStrLe :=
  ⟨fun a b c h1 h2 => strLeb_trans a.toList b.toList c.toList h1 h2⟩

instance goStrLeAntisymm : IsAntisymm String goStrLe :=
  ⟨fun a b h1 h2 => String.ext (strLeb_antisymm a.toList b.toList h1 h2)⟩

/-- Two enumerations of the same key set sort to the same list: the
sorted-key iteration of the template engine is deterministic in the
key set. -/
theorem insertionSort_perm_eq {l1 l2 : List String} (h : l1.Perm l2) :
    List.insertionSort goStrLe l1 = List.insertionSort goStrLe l2 :=
  List.eq_of_perm_of_sorted
    ((List.perm_insertionSort _ _).trans (h.trans (List.perm_insertionSort _ _).symm))
    (List.sorted_insertionSort _ _) (List.sorted_insertionSort _ _)

/-! ## Lemmas on the grouping map -/

/-- Inserting a method touches exactly its receiver-type bucket, by
appending the method at the end of that bucket. -/
theorem lookupGroup_insertGroup (g : List (String × List Method)) (m : Method) (k : String) :
    lookupGroup (insertGroup g m) k =
      if m.ReceiverType = k then lookupGroup g k ++ [m] else lookupGroup g k := by
  induction g with
  | nil => by_cases h : m.ReceiverType = k <;> simp [insertGroup, lookupGroup, h]
  | cons pr rest ih =>
    obtain ⟨k0, ms0⟩ := pr
    by_cases h1 : k0 = m.ReceiverType
    · by_cases h2 : k0 = k
      · simp [insertGroup, lookupGroup, if_pos h1, ← h1, h2]
      · simp [insertGroup, lookupGroup, if_pos h1, ← h1, h2]
    · by_cases h2 : k0 = k
      · have h3 : ¬(m.ReceiverType = k) := fun hh => h1 (h2.trans hh.symm)
        have h4 : ¬(k = m.ReceiverType) := fun hh => h3 hh.symm
        simp [insertGroup, lookupGroup, h1, h2, h3, h4]
      · simp [insertGroup, lookupGroup, h1, h2, ih]

/-- After folding the whole method list, each bucket is the in-order
sublist of methods carrying that receiver type. -/
theorem lookupGroup_foldl (ms : List Method) :
    ∀ (g : List (String × List Method)) (k : String),
      lookupGroup (ms.foldl insertGroup g) k =
        lookupGroup g k ++ ms.filter (fun m => m.ReceiverType == k) := by
  induction ms with
  | nil => intro g k; simp
  | cons m rest ih =>
    intro g k
    rw [List.foldl_cons, ih, lookupGroup_insertGroup]
    by_cases h : m.ReceiverType = k
    · simp [List.filter_cons, h]
    · simp [List.filter_cons, h]

/-- The grouping of `Generate`: each receiver type's group is exactly
the order-preserving filter of the extracted method list. -/
theorem lookupGroup_groupMethods (ms : List Method) (k : String) :
    lookupGroup (groupMethods ms) k = ms.filter (fun m => m.ReceiverType == k) := by
  simpa [groupMethods, lookupGroup] using lookupGroup_foldl ms [] k

/-! ## Lemmas on extraction order -/

/-- The names of the directive-annotated function declarations of a
file, in declaration order. -/
def annotatedNames (ds : List Decl) : List String :=
  ds.filterMap (fun d =>
    match d with
    | .funcDecl fd => if (findDirective fd.doc).isSome then some fd.name else none
    | _ => none)

/-- A successful walk returns one method per annotated declaration, in
declaration order (witnessed by the name lists being equal). -/
theorem parseDecls_ok_names (all : List Decl) :
    ∀ (ds : List Decl) (ms : List Method), parseDecls all ds = .ok ms →
      ms.map (fun m => m.Name) = annotatedNames ds := by
  intro ds
  induction ds with
  | nil =>
    intro ms h
    simp only [parseDecls, Except.ok.injEq] at h
    rw [← h]
    rfl
  | cons d rest ih =>
    intro ms h
    cases d with
    | funcDecl fd =>
      cases hdir : findDirective fd.doc with
      | some p =>
        rw [show parseDecls all (Decl.funcDecl fd :: rest) =
            (match parseMethod all fd p with
             | .error e => .error e
             | .ok m =>
               match parseDecls all rest with
               | .error e => .error e
               | .ok ms => .ok (m :: ms)) from by rw [parseDecls, hdir]] at h
        cases hpm : parseMethod all fd p with
        | error e => rw [hpm] at h; simp at h
        | ok m =>
          rw [hpm] at h
          cases hrest : parseDecls all rest with
          | error e => rw [hrest] at h; simp at h
          | ok ms' =>
            rw [hrest] at h
            simp only [Except.ok.injEq] at h
            rw [← h]
            simp only [List.map_cons, annotatedNames, List.filterMap_cons, hdir,
              Option.isSome_some, if_pos]
            rw [parseMethod_ok_name all fd p m hpm, ih ms' hrest]
            rfl
      | none =>
        rw [show parseDecls all (Decl.funcDecl fd :: rest) = parseDecls all rest from
          by rw [parseDecls, hdir]] at h
        simp only [annotatedNames, List.filterMap_cons, hdir, Option.isSome_none,
          Bool.false_eq_true, if_false]
        exact ih ms h
    | typeSpecStruct n fs =>
      rw [show parseDecls all (Decl.typeSpecStruct n fs :: rest) = parseDecls all rest from
        rfl] at h
      simpa [annotatedNames] using ih ms h
    | otherDecl =>
      rw [show parseDecls all (Decl.otherDecl :: rest) = parseDecls all rest from
        rfl] at h
      simpa [annotatedNames] using ih ms h

/-! ## Claim C8 -/

/-- C8: for every input file that extracts successfully, each
receiver-type group is an order-preserving sublist of the extracted
method list, and that list carries the annotated declarations' names in
declaration order — so within a `MethodGroup` the methods appear in the
same relative order as their declarations in the source text. -/
theorem c8_group_preserves_order (file : GoFile) (ms : List Method) (rt : String)
    (h : parseFile file = .ok ms) :
    List.Sublist (lookupGroup (groupMethods ms) rt) ms ∧
    ms.map (fun m => m.Name) = annotatedNames file.decls ∧
    List.Sublist ((lookupGroup (groupMethods ms) rt).map (fun m => m.Name))
      (annotatedNames file.decls) := by
  have hnames := parseDecls_ok_names file.decls file.decls ms h
  have hlk := lookupGroup_groupMethods ms rt
  refine ⟨?_, hnames, ?_⟩
  · rw [hlk]; exact List.filter_sublist _
  · rw [hlk, ← hnames]
    exact List.Sublist.map _ (List.filter_sublist _)

/-- The C8 witness file: methods `F1`, `F2` on receiver `A` with `G`
on receiver `B` declared between them. -/
def fileC8 : GoFile :=
  { pkgName := "example",
    decls := [.funcDecl (wellFormedFd "F1" "A" (.ok { Url := "/a" })),
              .funcDecl (wellFormedFd "G" "B" (.ok { Url := "/b" })),
              .funcDecl (wellFormedFd "F2" "A" (.ok { Url := "/c" }))] }

/-- The method list `parseFile` extracts from `fileC8`. -/
def msC8 : List Method :=
  [{ Name := "F1", ReceiverName := "r", ReceiverType := "A", InputType := "Params",
     OutputType := "Result",
     Api := { Url := "/a", Auth := false, Method := "GET,POST", AuthEnvKey := "" },
     StructFields := [] },
   { Name := "G", ReceiverName := "r", ReceiverType := "B", InputType := "Params",
     OutputType := "Result",
     Api := { Url := "/b", Auth := false, Method := "GET,POST", AuthEnvKey := "" },
     StructFields := [] },
   { Name := "F2", ReceiverName := "r", ReceiverType := "A", InputType := "Params",
     OutputType := "Result",
     Api := { Url := "/c", Auth := false, Method := "GET,POST", AuthEnvKey := "" },
     StructFields := [] }]

/-- C8 witness: on the concrete interleaved file, group `A` is an
order-preserving sublist of the extraction, whose names follow the
declaration order `F1`, `G`, `F2`. -/
theorem c8_group_preserves_order_witness :
    List.Sublist (lookupGroup (groupMethods msC8) "A") msC8 ∧
    msC8.map (fun m => m.Name) = annotatedNames fileC8.decls ∧
    List.Sublist ((lookupGroup (groupMethods msC8) "A").map (fun m => m.Name))
      (annotatedNames fileC8.decls) :=
  c8_group_preserves_order fileC8 msC8 "A" (by decide)

/-! ## Claim C7 -/

/-- A minimal extracted method on the given receiver type, for the
rendering claims. -/
def mkMethod (nm rt : String) : Method :=
  { Name := nm, ReceiverName := "r", ReceiverType := rt, InputType := "In",
    OutputType := "Out",
    Api := { Url := "/u", Auth := false, Method := "GET,POST", AuthEnvKey := "" },
    StructFields := [] }

/-- C7 counterexample: with methods first seen on receiver `B`, then
`A` (so the map enumeration `["B", "A"]` is first-seen order), the
rendered output presents group `A` before group `B` — the sorted-key
iteration of the template engine, not the first-seen order, governs
the output. -/
theorem c7_counterexample :
    renderTemplate ["B", "A"] "m" (groupMethods [mkMethod "MB" "B", mkMethod "MA" "A"]) ≠
      renderTemplateFirstSeen "m" (groupMethods [mkMethod "MB" "B", mkMethod "MA" "A"]) := by
  decide

/-- C7 (amended): the render context's groups are emitted in sorted
receiver-type order (Go's text/template ranges over the map in sorted
key order); the first-seen order of the claim governs the output
exactly when it is already sorted. -/
theorem c7_groups_render_sorted (pkg : String) (grouped : List (String × List Method))
    (keyEnum : List String)
    (hperm : keyEnum.Perm (grouped.map Prod.fst))
    (hsorted : List.Sorted goStrLe (grouped.map Prod.fst)) :
    renderTemplate keyEnum pkg grouped = renderTemplateFirstSeen pkg grouped := by
  unfold renderTemplate renderTemplateFirstSeen
  rw [List.eq_of_perm_of_sorted ((List.perm_insertionSort _ _).trans hperm)
    (List.sorted_insertionSort _ _) hsorted]

/-- C7 witness: with first-seen order `A`, `B` (already sorted), any
map enumeration renders the groups exactly in that first-seen order. -/
theorem c7_groups_render_sorted_witness :
    renderTemplate ["B", "A"] "m" (groupMethods [mkMethod "MA" "A", mkMethod "MB" "B"]) =
      renderTemplateFirstSeen "m" (groupMethods [mkMethod "MA" "A", mkMethod "MB" "B"]) := by
  apply c7_groups_render_sorted
  · rw [show (groupMethods [mkMethod "MA" "A", mkMethod "MB" "B"]).map Prod.fst = ["A", "B"]
      from by decide]
    exact List.Perm.swap "A" "B" []
  · rw [show (groupMethods [mkMethod "MA" "A", mkMethod "MB" "B"]).map Prod.fst = ["A", "B"]
      from by decide]
    decide

/-! ## Claim C9 -/

/-- C9: the generated output is byte-identical across runs — the only
run-to-run varying input, the unordered map's key enumeration handed
to the template engine, does not influence the bytes `Generate`
writes, because the engine sorts the keys. -/
theorem c9_deterministic_output (formatSource : String → Except String String)
    (ko1 ko2 : List String) (file : GoFile) (h : ko1.Perm ko2) :
    Generate handlerTemplate formatSource ko1 file =
      Generate handlerTemplate formatSource ko2 file := by
  unfold Generate
  cases hp : parseFile file with
  | error e => rfl
  | ok ms =>
    simp only [handlerTemplate, renderTemplate]
    rw [insertionSort_perm_eq h]

/-- C9 witness: two opposite map enumerations over the two-receiver
file produce the same bytes. -/
theorem c9_deterministic_output_witness :
    Generate handlerTemplate (fun s => .ok s) ["B", "A"] fileC8 =
      Generate handlerTemplate (fun s => .ok s) ["A", "B"] fileC8 :=
  c9_deterministic_output _ _ _ _ (List.Perm.swap "A" "B" [])

/-! ## Claim C2 -/

/-- C2: `Generate` writes the destination only after the complete
rendered buffer passed the syntax-aware formatter — an `.ok out` run
comes with a template buffer that formatted successfully to exactly
`out` — and a template or format failure is returned as the error with
the run aborted before any write. -/
theorem c2_write_only_after_format
    (tmplExec : String → List (String × List Method) → List String → Except String String)
    (formatSource : String → Except String String)
    (keyEnum : List String) (file : GoFile) :
    (∀ out, Generate tmplExec formatSource keyEnum file = .ok out →
      ∃ ms buf, parseFile file = .ok ms ∧
        tmplExec file.pkgName (groupMethods ms) keyEnum = .ok buf ∧
        formatSource buf = .ok out) ∧
    (∀ ms e, parseFile file = .ok ms →
      tmplExec file.pkgName (groupMethods ms) keyEnum = .error e →
      Generate tmplExec formatSource keyEnum file = .error (.templateErr e)) ∧
    (∀ ms buf e, parseFile file = .ok ms →
      tmplExec file.pkgName (groupMethods ms) keyEnum = .ok buf →
      formatSource buf = .error e →
      Generate tmplExec formatSource keyEnum file = .error (.formatErr e)) := by
  refine ⟨?_, ?_, ?_⟩
  · intro out h
    cases hp : parseFile file with
    | error e => simp [Generate, hp] at h
    | ok ms =>
      cases ht : tmplExec file.pkgName (groupMethods ms) keyEnum with
      | error e => simp [Generate, hp, ht] at h
      | ok buf =>
        cases hf : formatSource buf with
        | error e => simp [Generate, hp, ht, hf] at h
        | ok s =>
          simp only [Generate, hp, ht, hf, Except.ok.injEq] at h
          exact ⟨ms, buf, rfl, ht, by rw [hf, h]⟩
  · intro ms e hp ht
    simp [Generate, hp, ht]
  · intro ms buf e hp ht hf
    simp [Generate, hp, ht, hf]

/-- An input file with no declarations, for the C2 witness. -/
def fileEmpty : GoFile := { pkgName := "m", decls := [] }

/-- C2 witness: a failing template aborts with its error, a failing
formatter aborts with its error, and a successful run's written bytes
are the formatter's output of the rendered buffer. -/
theorem c2_write_only_after_format_witness :
    Generate (fun _ _ _ => .error "boom") (fun s => .ok s) [] fileEmpty =
        .error (.templateErr "boom") ∧
    Generate handlerTemplate (fun _ => .error "syntax") [] fileEmpty =
        .error (.formatErr "syntax") ∧
    ∃ ms buf, parseFile fileEmpty = .ok ms ∧
      handlerTemplate fileEmpty.pkgName (groupMethods ms) [] = .ok buf ∧
      (Except.ok buf : Except String String) = .ok "package m\n" :=
  ⟨(c2_write_only_after_format (fun _ _ _ => .error "boom") (fun s => .ok s) []
      fileEmpty).2.1 [] "boom" (by decide) rfl,
   (c2_write_only_after_format handlerTemplate (fun _ => .error "syntax") []
      fileEmpty).2.2 [] "package m\n" "syntax" (by decide) (by decide) rfl,
   (c2_write_only_after_format handlerTemplate (fun s => .ok s) []
      fileEmpty).1 "package m\n" (by decide)⟩
